import Mathlib

/-!
Shallow embedding of the SPCA scraping pipeline (src/src/...) for checking the
natural-language specification against the code.

Each definition is translated from a specific Python function; the source file
and symbol are named in the doc comment.
-/

/-! ### Enumerations from `src/src/database/models.py` -/

/-- `URLType` enum (`src/src/database/models.py`), in declaration order:
ANIMAL, ADOPTION_LIST, GENERAL, SERVICE, TIPS, IGNORED. -/
inductive URLType where
  | ANIMAL
  | ADOPTION_LIST
  | GENERAL
  | SERVICE
  | TIPS
  | IGNORED
deriving DecidableEq, Repr

/-- Iteration order of `URLType` members (Python enum / dict insertion order). -/
def URLType.all : List URLType :=
  [.ANIMAL, .ADOPTION_LIST, .GENERAL, .SERVICE, .TIPS, .IGNORED]

/-- `ScrapeStatus` enum (`src/src/database/models.py`). -/
inductive ScrapeStatus where
  | PENDING
  | SUCCESS
  | FAILED
deriving DecidableEq, Repr

/-- `JobStatus` enum (`src/src/database/models.py`). -/
inductive JobStatus where
  | PENDING
  | RUNNING
  | COMPLETED
  | FAILED
deriving DecidableEq, Repr

/-- `JobType` enum (`src/src/database/models.py`). -/
inductive JobType where
  | FULL
  | ANIMALS_ONLY
  | CONTENT_ONLY
  | INCREMENTAL
deriving DecidableEq, Repr

/-- `AnimalStatus` enum (`src/src/database/models.py`). -/
inductive AnimalStatus where
  | AVAILABLE
  | ADOPTED
  | PENDING
  | HOLD
deriving DecidableEq, Repr

/-! ### Regular-expression fragment used by the URL categorizer

`URLCategorizer.PATTERNS` (`src/src/scrapers/url_categorizer.py`) only uses
linear regexes: sequences of literal characters, the classes `[\w-]` and `\d`
with quantifiers `+` and `?`, one alternation of literal strings
`(pdf|jpg|...)`, and an optional `$` end anchor.  `re.search` with
`re.IGNORECASE` is embedded as a backtracking matcher over `List Char`,
started at every position of the subject (ASCII case folding; the URLs the
categorizer handles are ASCII). -/

/-- A character class occurring in the categorizer's patterns. -/
inductive CharClass where
  | lit (c : Char)
  | wordDash
  | digit
deriving DecidableEq, Repr

/-- Whether a character matches a class, case-insensitively (`re.IGNORECASE`).
`[\w-]` is `\w` (letter, digit, underscore) or `-`. -/
def CharClass.matchesChar : CharClass → Char → Bool
  | .lit c, d => c.toLower == d.toLower
  | .wordDash, d => d.isAlphanum || d == '_' || d == '-'
  | .digit, d => d.isDigit

/-- One item of a linear regex: a class with quantifier 1, `+` or `?`, or an
alternation of literal strings. -/
inductive RItem where
  | one (cls : CharClass)
  | plus (cls : CharClass)
  | opt (cls : CharClass)
  | alts (ss : List String)
deriving Repr

/-- A linear pattern: items in sequence, optionally anchored at the end
(`$`). -/
structure RPattern where
  items : List RItem
  anchorEnd : Bool
deriving Repr

/-- Case-insensitively strip a literal prefix, returning the remainder. -/
def stripCI : List Char → List Char → Option (List Char)
  | [], s => some s
  | _ :: _, [] => none
  | p :: ps, c :: cs => if p.toLower == c.toLower then stripCI ps cs else none

/-- Suffixes remaining after `cls+` consumes 1..n leading matching
characters (all backtracking choices). -/
def plusResidues (cls : CharClass) : List Char → List (List Char)
  | [] => []
  | c :: cs => if cls.matchesChar c then cs :: plusResidues cls cs else []

/-- Suffixes remaining after one item consumes a prefix of the input. -/
def RItem.residues : RItem → List Char → List (List Char)
  | .one _, [] => []
  | .one cls, c :: cs => if cls.matchesChar c then [cs] else []
  | .opt _, [] => [[]]
  | .opt cls, c :: cs => if cls.matchesChar c then [c :: cs, cs] else [c :: cs]
  | .plus cls, s => plusResidues cls s
  | .alts ss, s => ss.filterMap (fun p => stripCI p.toList s)

/-- Suffixes remaining after a whole item sequence matches a prefix. -/
def matchSeq : List RItem → List Char → List (List Char)
  | [], s => [s]
  | it :: its, s => (it.residues s).flatMap (matchSeq its)

/-- Anchored match at the start of `s` (respecting the end anchor). -/
def RPattern.searchAt (p : RPattern) (s : List Char) : Bool :=
  (matchSeq p.items s).any (fun r => !p.anchorEnd || r.isEmpty)

/-- Embedding of `re.search(pattern, url, re.IGNORECASE)`: try every start
position. -/
def RPattern.search (p : RPattern) (s : String) : Bool :=
  let cs := s.toList
  (List.range (cs.length + 1)).any (fun i => p.searchAt (cs.drop i))

/-- Literal characters of a string as regex items. -/
def litItems (t : String) : List RItem :=
  t.toList.map (fun c => RItem.one (CharClass.lit c))

/-- Unanchored pattern made of literal characters (substring search). -/
def litPattern (t : String) : RPattern :=
  ⟨litItems t, false⟩

/-- Case-sensitive substring test, embedding Python's `"x" in url`. -/
def containsSub (needle hay : String) : Bool :=
  let n := needle.toList
  let h := hay.toList
  (List.range (h.length + 1)).any (fun i => n.isPrefixOf (h.drop i))

/-! ### `URLCategorizer` (`src/src/scrapers/url_categorizer.py`) -/

/-- `CategorizedURL` dataclass. -/
structure CategorizedURL where
  url : String
  url_type : URLType
  priority : Nat
  language : String
deriving DecidableEq, Repr

namespace URLCategorizer

/-- `r"/en/animal/[\w-]+-\d+/?"` (and the `/fr/` variant via `litItems`). -/
def animalPattern (langSeg : String) : RPattern :=
  ⟨litItems ("/" ++ langSeg ++ "/animal/") ++
    [RItem.plus .wordDash, RItem.one (.lit '-'), RItem.plus .digit,
     RItem.opt (.lit '/')], false⟩

/-- `r"/en/adoption/[\w-]+-for-adoption/?"` and the French variant. -/
def adoptionPattern (langSeg tail : String) : RPattern :=
  ⟨litItems ("/" ++ langSeg ++ "/adoption/") ++
    [RItem.plus .wordDash] ++ litItems tail ++ [RItem.opt (.lit '/')], false⟩

/-- `r"\.(pdf|jpg|jpeg|png|gif|mp4|mp3|doc|docx|xls|xlsx)$"`. -/
def mediaPattern : RPattern :=
  ⟨[RItem.one (.lit '.'),
    RItem.alts ["pdf", "jpg", "jpeg", "png", "gif", "mp4", "mp3", "doc",
                "docx", "xls", "xlsx"]], true⟩

/-- `URLCategorizer.PATTERNS`: the ordered `(regex, url_type, priority)`
list, translated entry by entry. -/
def PATTERNS : List (RPattern × URLType × Nat) :=
  [ (animalPattern "en", .ANIMAL, 1),
    (animalPattern "fr", .ANIMAL, 1),
    (adoptionPattern "en" "-for-adoption", .ADOPTION_LIST, 2),
    (adoptionPattern "fr" "-a-adopter", .ADOPTION_LIST, 2),
    (litPattern "/en/services/", .SERVICE, 3),
    (litPattern "/fr/services/", .SERVICE, 3),
    (litPattern "/en/tips-and-advice/", .TIPS, 4),
    (litPattern "/fr/conseils/", .TIPS, 4),
    (mediaPattern, .IGNORED, 99),
    (litPattern "/wp-content/", .IGNORED, 99),
    (litPattern "/wp-admin/", .IGNORED, 99),
    (litPattern "/calendar/", .IGNORED, 99),
    (litPattern "/feed/", .IGNORED, 99),
    (litPattern "/cart/", .IGNORED, 99),
    (litPattern "/checkout/", .IGNORED, 99),
    (litPattern "/my-account/", .IGNORED, 99) ]

/-- The loop body of `URLCategorizer.categorize`: first matching pattern
wins; unmatched URLs default to `GENERAL` with priority 5. -/
def categorizeAux (url lang : String) :
    List (RPattern × URLType × Nat) → CategorizedURL
  | [] => ⟨url, .GENERAL, 5, lang⟩
  | (p, t, pr) :: rest =>
      if p.search url then ⟨url, t, pr, lang⟩ else categorizeAux url lang rest

/-- `URLCategorizer.categorize`: language is `"fr"` iff `"/fr/"` occurs in
the URL, then the pattern list is scanned in order. -/
def categorize (url : String) : CategorizedURL :=
  categorizeAux url (if containsSub "/fr/" url then "fr" else "en") PATTERNS

/-- Stable insertion keeping earlier equal-priority entries first
(Python's `list.sort` is stable). -/
def insertByPriority (x : CategorizedURL) :
    List CategorizedURL → List CategorizedURL
  | [] => [x]
  | y :: ys =>
      if y.priority ≤ x.priority then y :: insertByPriority x ys
      else x :: y :: ys

/-- Stable sort by `priority` (ascending), embedding `sort(key=lambda x:
x.priority)`. -/
def sortByPriority : List CategorizedURL → List CategorizedURL
  | [] => []
  | x :: xs => insertByPriority x (sortByPriority xs)

/-- One group of `URLCategorizer.categorize_batch`: the categorized URLs of
one type in input order (each group is then sorted by priority, which is
constant within a type). -/
def batchGroup (urls : List String) (t : URLType) : List CategorizedURL :=
  sortByPriority ((urls.map categorize).filter (fun cu => cu.url_type == t))

/-- `URLCategorizer.filter_scrapable`: concatenate the non-IGNORED groups in
enum order, then sort the result by priority. -/
def filter_scrapable (urls : List String) : List CategorizedURL :=
  sortByPriority
    ((URLType.all.filter (fun t => t ≠ URLType.IGNORED)).flatMap
      (batchGroup urls))

/-- Whether some `IGNORED`-typed entry of `PATTERNS` matches the URL. -/
def ignorePatternMatches (url : String) : Bool :=
  (PATTERNS.filter (fun e => e.2.1 == URLType.IGNORED)).any
    (fun e => e.1.search url)

/-- Whether some non-`IGNORED` (content) entry of `PATTERNS` matches the
URL. -/
def contentPatternMatches (url : String) : Bool :=
  (PATTERNS.filter (fun e => e.2.1 ≠ URLType.IGNORED)).any
    (fun e => e.1.search url)

end URLCategorizer

example : (URLCategorizer.categorize
    "https://www.spca.com/en/animal/bella-cat-12345/").url_type
    = URLType.ANIMAL := by decide

example : (URLCategorizer.categorize
    "https://www.spca.com/en/services/brochure.pdf").url_type
    = URLType.SERVICE := by decide

example : (URLCategorizer.categorize
    "https://www.spca.com/wp-admin/post").url_type = URLType.IGNORED := by
  decide

example : (URLCategorizer.categorize
    "https://www.spca.com/fr/conseils/chats/").language = "fr" := by decide

/-! ### `ScrapedURL` tracking records
(`src/src/database/models.py`, `src/src/database/repositories/scrape_repository.py`)

The `scraped_urls` table is embedded as a list of records (the `url` column
carries a unique constraint, stated as a `Nodup` hypothesis where needed).
Timestamps are abstract naturals.  SQL `UPDATE ... WHERE url = ...`
statements become maps over the list. -/

/-- A row of `scraped_urls` (`ScrapedURL` model). -/
structure ScrapedURLRec where
  url : String
  url_type : URLType
  content_hash : Option String
  last_scraped_at : Option Nat
  scrape_status : ScrapeStatus
  retry_count : Nat
  error_message : Option String
  file_path : Option String
  job_id : Option Nat
deriving DecidableEq, Repr

/-- The `scraped_urls` table. -/
abbrev URLStore := List ScrapedURLRec

namespace ScrapedURLRepository

/-- `get_by_url`: `SELECT ... WHERE url = url`. -/
def get_by_url (store : URLStore) (url : String) : Option ScrapedURLRec :=
  store.find? (fun r => r.url == url)

/-- `get_failed(max_retries)`: failed URLs with `retry_count < max_retries`. -/
def get_failed (store : URLStore) (max_retries : Nat) : List ScrapedURLRec :=
  store.filter
    (fun r => r.scrape_status == ScrapeStatus.FAILED
      && r.retry_count < max_retries)

/-- Python truthiness of the optional integer `job_id` argument
(`if job_id:` is false for `None` and for `0`). -/
def jobIdTruthy : Option Nat → Bool
  | none => false
  | some j => j != 0

/-- `upsert(url, url_type, job_id)`: update `url_type` (and `job_id` when the
argument is truthy) of an existing row, or insert a fresh `PENDING` row with
`retry_count = 0`. -/
def upsert (store : URLStore) (url : String) (t : URLType)
    (job_id : Option Nat) : URLStore :=
  match get_by_url store url with
  | some _ =>
      store.map (fun r =>
        if r.url == url then
          { r with
            url_type := t,
            job_id := if jobIdTruthy job_id then job_id else r.job_id }
        else r)
  | none =>
      store ++ [{ url := url, url_type := t, content_hash := none,
                  last_scraped_at := none,
                  scrape_status := ScrapeStatus.PENDING, retry_count := 0,
                  error_message := none, file_path := none,
                  job_id := job_id }]

/-- `mark_success(url, content_hash, file_path)` at abstract time `now`. -/
def mark_success (store : URLStore) (url : String) (hash : String)
    (file_path : Option String) (now : Nat) : URLStore :=
  store.map (fun r =>
    if r.url == url then
      { r with
        scrape_status := ScrapeStatus.SUCCESS,
        last_scraped_at := some now,
        content_hash := some hash,
        file_path := file_path,
        error_message := none }
    else r)

/-- `mark_failed(url, error_message)`: re-reads the row, then sets
`retry_count` to the fetched row's count plus one; a no-op when the URL is
untracked. -/
def mark_failed (store : URLStore) (url : String) (err : String) : URLStore :=
  match get_by_url store url with
  | none => store
  | some fetched =>
      store.map (fun r =>
        if r.url == url then
          { r with
            scrape_status := ScrapeStatus.FAILED,
            retry_count := fetched.retry_count + 1,
            error_message := some err }
        else r)

end ScrapedURLRepository

/-! ### Content sub-pipeline, phase 2 retry loop
(`PipelineOrchestrator._scrape_content`, `src/src/pipeline/orchestrator.py`,
lines 327-389)

One round re-attempts every URL returned by `get_failed(3)`.  A retry that
returns `success` flips the row to SUCCESS and counts in both `retried` and
`retry_success`; a retry that returns an error record marks the row failed
and counts in `retried` only; a retry that **raises** marks the row failed
but does not reach the `retried += 1` statement.  After the round, the loop
breaks early iff `retry_success == 0 and retried > 0`. -/

/-- Outcome of one `content_scraper.scrape_and_save(url)` call. -/
inductive FetchOutcome where
  | ok (hash : String) (file_path : Option String)
  | fail (err : String)
  | exc (err : String)
deriving DecidableEq, Repr

/-- Result of one phase-2 round: updated store, `retried`, `retry_success`. -/
structure RoundResult where
  store : URLStore
  retried : Nat
  retry_success : Nat
deriving Repr

/-- The `for scraped_url in failed_urls` body of a phase-2 round, folded over
the failed list; `f` gives the outcome of re-scraping each URL. -/
def runRound (f : String → FetchOutcome) (now : Nat) (store : URLStore) :
    List ScrapedURLRec → RoundResult
  | [] => ⟨store, 0, 0⟩
  | su :: rest =>
      match f su.url with
      | .ok h fp =>
          let st := ScrapedURLRepository.mark_success store su.url h fp now
          let res := runRound f now st rest
          ⟨res.store, res.retried + 1, res.retry_success + 1⟩
      | .fail e =>
          let st := ScrapedURLRepository.mark_failed store su.url e
          let res := runRound f now st rest
          ⟨res.store, res.retried + 1, res.retry_success⟩
      | .exc e =>
          let st := ScrapedURLRepository.mark_failed store su.url e
          let res := runRound f now st rest
          ⟨res.store, res.retried, res.retry_success⟩

/-- The phase-2 `for retry_attempt in range(1, max_retries + 1)` loop.
`f k url` is the outcome of retrying `url` in round `k`; `fuel` is the
number of remaining rounds (initially `max_retries = 3`).  Returns the final
store and the number of rounds actually executed. -/
def phase2Go (f : Nat → String → FetchOutcome) (now : Nat) :
    Nat → Nat → URLStore → URLStore × Nat
  | 0, _, store => (store, 0)
  | fuel + 1, k, store =>
      let failed := ScrapedURLRepository.get_failed store 3
      if failed.isEmpty then (store, 0)
      else
        let res := runRound (f k) now store failed
        if res.retry_success == 0 && decide (res.retried > 0) then
          (res.store, 1)
        else
          let next := phase2Go f now fuel (k + 1) res.store
          (next.1, next.2 + 1)

/-- Phase 2 of `_scrape_content`: up to `max_retries = 3` rounds starting at
round index 1. -/
def phase2 (f : Nat → String → FetchOutcome) (now : Nat)
    (store : URLStore) : URLStore × Nat :=
  phase2Go f now 3 1 store

/-! ### Animal repository and the entity sub-pipeline
(`src/src/database/repositories/animal_repository.py`,
`PipelineOrchestrator._scrape_animals`, orchestrator lines 181-274)

Only `reference_number` (unique key) and `status` of an animal row matter to
the claims; the parsed `animal_data` dict carries no `status` key, so an
upsert of an existing row leaves its status alone while a new row gets the
column default `AVAILABLE`. -/

/-- The `animals` table, projected to (reference_number, status). -/
abbrev AnimalStore := List (String × AnimalStatus)

namespace AnimalRepository

/-- `get_by_reference`. -/
def get_by_reference (store : AnimalStore) (ref : String) :
    Option (String × AnimalStatus) :=
  store.find? (fun a => a.1 == ref)

/-- `get_all_reference_numbers`: `{row[0] for row in result.all()}`. -/
def get_all_reference_numbers (store : AnimalStore) : Finset String :=
  (store.map Prod.fst).toFinset

/-- `upsert(animal_data)`: raises `ValueError` on a falsy reference number;
otherwise updates the existing row (status key absent from scraped data, so
status untouched) or inserts a new row with default status `AVAILABLE`. -/
def upsert (store : AnimalStore) (ref : String) :
    Except String AnimalStore :=
  if ref == "" then .error "reference_number is required for upsert"
  else
    match get_by_reference store ref with
    | some _ => .ok store
    | none => .ok (store ++ [(ref, AnimalStatus.AVAILABLE)])

/-- `mark_adopted(reference_number)`: sets status `ADOPTED` when the row
exists, no-op otherwise. -/
def mark_adopted (store : AnimalStore) (ref : String) : AnimalStore :=
  match get_by_reference store ref with
  | none => store
  | some _ =>
      store.map (fun a => if a.1 == ref then (a.1, AnimalStatus.ADOPTED) else a)

end AnimalRepository

/-- Per-pet outcome in the `_scrape_animals` loop, flattened over all
listing pages of the run. -/
inductive PetOutcome where
  | noUrl
  | scrapeFail (url err : String)
  | saveFail (url ref : String)
  | saved (url ref : String)
deriving DecidableEq, Repr

/-- Mutable state of one `_scrape_animals` run. -/
structure AnimalRunState where
  animals : AnimalStore
  found : Finset String
  scraped : Nat
  failed : Nat
deriving DecidableEq

/-- Body of the `for pet_card in pet_cards` loop: a missing URL skips the
card; an unsuccessful scrape marks failure; on success the record is
upserted (a raising save, or the `ValueError` for a falsy reference, lands
in the failure branch) and the reference is added to `found_refs` when
truthy. -/
def processPet (st : AnimalRunState) : PetOutcome → AnimalRunState
  | .noUrl => st
  | .scrapeFail _ _ => { st with failed := st.failed + 1 }
  | .saveFail _ _ => { st with failed := st.failed + 1 }
  | .saved _ ref =>
      match AnimalRepository.upsert st.animals ref with
      | .error _ => { st with failed := st.failed + 1 }
      | .ok animals' =>
          { st with
            animals := animals',
            scraped := st.scraped + 1,
            found := if ref != "" then insert ref st.found else st.found }

/-- `PipelineOrchestrator._scrape_animals`: snapshot the existing reference
numbers, process every discovered pet, then mark each reference in
`existing_refs - found_refs` adopted.  Returns the final animal store, the
run's `found_refs` and the `adopted_refs` difference. -/
def scrapeAnimals (animals : AnimalStore) (pets : List PetOutcome) :
    AnimalStore × Finset String × Finset String :=
  let existing := AnimalRepository.get_all_reference_numbers animals
  let st := pets.foldl processPet ⟨animals, ∅, 0, 0⟩
  let adopted := existing \ st.found
  let adoptedList :=
    (animals.map Prod.fst).dedup.filter (fun ref => decide (ref ∉ st.found))
  (adoptedList.foldl AnimalRepository.mark_adopted st.animals,
   st.found, adopted)

/-! ### Job records, session transactions, and the orchestrator run wrappers
(`src/src/database/session.py`, `ScrapeJobRepository`,
`PipelineOrchestrator.run_full_scrape` / `run_animal_scrape` /
`run_content_scrape`)

`get_session` commits on a clean exit of the `async with` body and rolls the
session back when the body raises.  Repository calls execute SQL inside the
session's current transaction; only `commit` publishes them to the
database.  The session is modelled for the single job row of one run:
`committed` is the database state, `pending` the in-transaction state. -/

/-- A `scrape_jobs` row. -/
structure JobRec where
  job_type : JobType
  status : JobStatus
  started_at : Option Nat
  completed_at : Option Nat
  urls_discovered : Nat
  urls_scraped : Nat
  urls_failed : Nat
  error_message : Option String
deriving DecidableEq, Repr

/-- Session view of the run's job row. -/
structure JobSession where
  committed : Option JobRec
  pending : Option JobRec
deriving DecidableEq, Repr

/-- `session.commit()`. -/
def sessionCommit (s : JobSession) : JobSession :=
  { s with committed := s.pending }

/-- `session.rollback()` (from `get_session`'s exception handler). -/
def sessionRollback (s : JobSession) : JobSession :=
  { s with pending := s.committed }

namespace ScrapeJobRepository

/-- `start_job(job_type)`: add + flush a RUNNING row (uncommitted). -/
def start_job (s : JobSession) (t : JobType) (now : Nat) : JobSession :=
  { s with
    pending := some
      { job_type := t, status := JobStatus.RUNNING, started_at := some now,
        completed_at := none, urls_discovered := 0, urls_scraped := 0,
        urls_failed := 0, error_message := none } }

/-- `complete_job(job_id, ...)`: UPDATE in the current transaction. -/
def complete_job (s : JobSession) (d sc fl now : Nat) : JobSession :=
  { s with
    pending := s.pending.map (fun j =>
      { j with
        status := JobStatus.COMPLETED, completed_at := some now,
        urls_discovered := d, urls_scraped := sc, urls_failed := fl }) }

/-- `fail_job(job_id, error_message)`: UPDATE in the current transaction. -/
def fail_job (s : JobSession) (err : String) (now : Nat) : JobSession :=
  { s with
    pending := s.pending.map (fun j =>
      { j with
        status := JobStatus.FAILED, completed_at := some now,
        error_message := some err }) }

end ScrapeJobRepository

/-- Abstraction of a run body (`discover` + sub-pipelines): whether some
per-item `session.commit()` happened during the body, and the body's
outcome (counts, or the message of a raised exception). -/
structure BodyRun where
  commitsDuringRun : Bool
  outcome : Except String (Nat × Nat × Nat)

/-- Common shape of `run_full_scrape` / `run_animal_scrape` /
`run_content_scrape`: inside `async with get_session()`, `start_job`, then
the body; on success `complete_job` then the context manager's `commit`; on
an exception `fail_job`, `emit_event` (which never raises:
`EventEmitter._safe_call` swallows handler errors), re-raise, and the
re-raised exception makes `get_session` `rollback`.  Returns the final
session and the caller-visible outcome. -/
def runJob (t : JobType) (body : BodyRun) (now : Nat) :
    JobSession × Except String JobStatus :=
  let s1 := ScrapeJobRepository.start_job ⟨none, none⟩ t now
  let s2 := if body.commitsDuringRun then sessionCommit s1 else s1
  match body.outcome with
  | .ok (d, sc, fl) =>
      let s3 := ScrapeJobRepository.complete_job s2 d sc fl now
      (sessionCommit s3, .ok JobStatus.COMPLETED)
  | .error e =>
      let s3 := ScrapeJobRepository.fail_job s2 e now
      (sessionRollback s3, .error e)

/-- `run_full_scrape`. -/
def run_full_scrape (body : BodyRun) (now : Nat) :
    JobSession × Except String JobStatus :=
  runJob JobType.FULL body now

/-- `run_animal_scrape`. -/
def run_animal_scrape (body : BodyRun) (now : Nat) :
    JobSession × Except String JobStatus :=
  runJob JobType.ANIMALS_ONLY body now

/-- `run_content_scrape`. -/
def run_content_scrape (body : BodyRun) (now : Nat) :
    JobSession × Except String JobStatus :=
  runJob JobType.CONTENT_ONLY body now

/-! ### `BaseScraper.scrape`: tenacity retry wrapper
(`src/src/scrapers/base.py`, lines 62-80)

`@retry(stop=stop_after_attempt(3), wait=wait_exponential(...),
retry=retry_if_exception_type((ConnectionError, TimeoutError, OSError)))`:
an attempt that raises one of the three listed exception classes is retried
while attempts remain; once `stop_after_attempt(3)` is hit tenacity raises
`RetryError`; any other exception propagates immediately.  The decorated
body first awaits `rate_limiter.acquire()`, then `asyncio.wait_for(...,
timeout)`, converting `asyncio.TimeoutError` into a `TimeoutError`. -/

/-- Exceptions relevant to `scrape`.  `retryError` is tenacity's wrapper
raised when the attempt cap stops a retryable failure. -/
inductive PyExc where
  | connectionError (msg : String)
  | timeoutError (msg : String)
  | osError (msg : String)
  | otherError (msg : String)
  | retryError (last : PyExc)
deriving DecidableEq, Repr

/-- `retry_if_exception_type((ConnectionError, TimeoutError, OSError))`. -/
def PyExc.retryable : PyExc → Bool
  | .connectionError _ => true
  | .timeoutError _ => true
  | .osError _ => true
  | _ => false

/-- Behavior of one `asyncio.wait_for(self._do_scrape(url), self.timeout)`
call. -/
inductive FetchRes where
  | ok (payload : String)
  | raiseConn (msg : String)
  | raiseTimeout (msg : String)
  | raiseOS (msg : String)
  | raiseOther (msg : String)
  | waitForTimeout
deriving DecidableEq, Repr

/-- The decorated body of `scrape` without the retry wrapper: the
`try/except asyncio.TimeoutError` converts a `wait_for` timeout into a
`TimeoutError` (which is retryable). -/
def scrapeBody (url : String) : FetchRes → Except PyExc String
  | .ok p => .ok p
  | .raiseConn m => .error (.connectionError m)
  | .raiseTimeout m => .error (.timeoutError m)
  | .raiseOS m => .error (.osError m)
  | .raiseOther m => .error (.otherError m)
  | .waitForTimeout => .error (.timeoutError ("Timeout scraping " ++ url))

instance {ε α : Type} [DecidableEq ε] [DecidableEq α] :
    DecidableEq (Except ε α) := fun a b =>
  match a, b with
  | .ok x, .ok y =>
      if h : x = y then .isTrue (congrArg Except.ok h)
      else .isFalse (fun hq => h (Except.ok.inj hq))
  | .error x, .error y =>
      if h : x = y then .isTrue (congrArg Except.error h)
      else .isFalse (fun hq => h (Except.error.inj hq))
  | .ok _, .error _ => .isFalse (fun hq => Except.noConfusion hq)
  | .error _, .ok _ => .isFalse (fun hq => Except.noConfusion hq)

/-- Result of a `scrape(url)` call: caller-visible outcome, number of
attempts made, number of `rate_limiter.acquire()` calls. -/
structure ScrapeRun where
  result : Except PyExc String
  attempts : Nat
  acquires : Nat
deriving DecidableEq, Repr

/-- The tenacity attempt loop with `cap` attempts remaining; `f n` is the
fetch behavior of the 0-based attempt `n`; each attempt awaits `acquire()`
before fetching. -/
def tenacityGo (url : String) (f : Nat → FetchRes) :
    Nat → Nat → ScrapeRun
  | 0, _ => ⟨.error (.otherError "unreachable: stop_after_attempt(0)"), 0, 0⟩
  | 1, i =>
      match scrapeBody url (f i) with
      | .ok p => ⟨.ok p, 1, 1⟩
      | .error e =>
          if e.retryable then ⟨.error (.retryError e), 1, 1⟩
          else ⟨.error e, 1, 1⟩
  | n + 2, i =>
      match scrapeBody url (f i) with
      | .ok p => ⟨.ok p, 1, 1⟩
      | .error e =>
          if e.retryable then
            let rest := tenacityGo url f (n + 1) (i + 1)
            ⟨rest.result, rest.attempts + 1, rest.acquires + 1⟩
          else ⟨.error e, 1, 1⟩

/-- `BaseScraper.scrape(url)`: `stop_after_attempt(3)`, starting at attempt
0. -/
def scrape (url : String) (f : Nat → FetchRes) : ScrapeRun :=
  tenacityGo url f 3 0

/-! ### `BaseScraper.scrape_batch` (`src/src/scrapers/base.py`, lines 87-104) -/

/-- A scrape result dict as `scrape_batch` sees it. -/
structure RawResult where
  url : String
  success : Bool
  error : Option String
  payload : Option String
deriving DecidableEq, Repr

/-- The inner `scrape_with_semaphore` closure: an exception raised by
`self.scrape(url)` becomes `{"url": url, "error": str(e), "success":
False}`; `scr` is the behavior of `self.scrape` per URL. -/
def scrapeWithSemaphore (scr : String → Except String RawResult)
    (url : String) : RawResult :=
  match scr url with
  | .ok r => r
  | .error e => { url := url, success := false, error := some e, payload := none }

/-- `scrape_batch(urls, max_concurrent)`: one task per URL;
`asyncio.gather` returns results in task-creation order, i.e. input
order. -/
def scrape_batch (scr : String → Except String RawResult)
    (urls : List String) : List RawResult :=
  urls.map (scrapeWithSemaphore scr)

/-! ### `AnimalScraper.scrape_listing_with_pagination`
(`src/src/scrapers/animal_scraper.py`, lines 138-178) -/

/-- `base_url.rstrip('/')`. -/
def rstripSlash (s : String) : String :=
  ⟨(s.toList.reverse.dropWhile (fun c => c == '/')).reverse⟩

/-- Page URL construction: page 1 is `base + '/'`, page N ≥ 2 is
`base + '/page/N/'` (on the slash-stripped base). -/
def pageUrl (base : String) (page : Nat) : String :=
  if page == 1 then base ++ "/" else base ++ "/page/" ++ toString page ++ "/"

/-- The `while page <= max_pages` loop; `fetch` is `scrape_listing_page`,
`fuel` the number of loop iterations still allowed (`max_pages - page + 1`).
Returns the accumulated items and the number of page requests made. -/
def paginateGo {α : Type} (fetch : String → List α) (base : String) :
    Nat → Nat → List α × Nat
  | 0, _ => ([], 0)
  | fuel + 1, page =>
      let pets := fetch (pageUrl base page)
      if pets.isEmpty then ([], 1)
      else
        let rest := paginateGo fetch base fuel (page + 1)
        (pets ++ rest.1, rest.2 + 1)

/-- `scrape_listing_with_pagination(base_url, max_pages)`. -/
def scrape_listing_with_pagination {α : Type} (fetch : String → List α)
    (base_url : String) (max_pages : Nat) : List α × Nat :=
  paginateGo fetch (rstripSlash base_url) max_pages 1

/-! ### `RateLimiter` (`src/src/scrapers/base.py`, lines 19-45)

`acquire()` holds the lock for its whole body, including the
`asyncio.sleep`, so calls are fully serialized; each call is entered no
earlier than the previous call's completion.  Times and token counts are
rationals. -/

/-- `RateLimiter` mutable state: `tokens` and `last_update`. -/
structure RLState where
  tokens : ℚ
  last_update : ℚ
deriving DecidableEq, Repr

/-- `RateLimiter.__init__(requests_per_second, burst)` at time `now`. -/
def rlInit (burst : ℚ) (now : ℚ) : RLState := ⟨burst, now⟩

/-- `RateLimiter.acquire()` entered at time `now`: refill
`min(burst, tokens + (now - last_update) * rps)` and set
`last_update = now`; with less than one token, sleep `(1 - tokens) / rps`
and set `tokens = 0` (leaving `last_update` at the pre-sleep instant),
otherwise consume one token.  Returns the new state and the completion
time. -/
def rlAcquire (rps burst : ℚ) (s : RLState) (now : ℚ) : RLState × ℚ :=
  let tokens := min burst (s.tokens + (now - s.last_update) * rps)
  if tokens < 1 then
    (⟨0, now⟩, now + (1 - tokens) / rps)
  else
    (⟨tokens - 1, now⟩, now)

/-- Completion times of a serialized sequence of `acquire()` calls entered
at the given times. -/
def rlRun (rps burst : ℚ) : RLState → List ℚ → List ℚ
  | _, [] => []
  | s, t :: ts =>
      let r := rlAcquire rps burst s t
      r.2 :: rlRun rps burst r.1 ts

/-- Validity of a call-time sequence under the lock serialization: call
times are reachable (each call is entered no earlier than the previous
call's completion, the first no earlier than `prevFinish`). -/
def rlValidFrom (rps burst : ℚ) (s : RLState) (prevFinish : ℚ) :
    List ℚ → Bool
  | [] => true
  | t :: ts =>
      decide (prevFinish ≤ t) &&
        (let r := rlAcquire rps burst s t
         rlValidFrom rps burst r.1 r.2 ts)

/-! ## Supporting lemmas for the URL categorizer -/

theorem categorizeAux_url_eq (url lang : String) :
    ∀ ps, (URLCategorizer.categorizeAux url lang ps).url = url := by
  intro ps
  induction ps with
  | nil => rfl
  | cons e rest ih =>
      obtain ⟨p, t, pr⟩ := e
      by_cases h : p.search url
      · simp [URLCategorizer.categorizeAux, h]
      · simp only [URLCategorizer.categorizeAux, h]
        simpa using ih

theorem categorize_url_eq (url : String) :
    (URLCategorizer.categorize url).url = url :=
  categorizeAux_url_eq url _ _

theorem categorizeAux_ignored (url lang : String) :
    ∀ ps : List (RPattern × URLType × Nat),
      (∀ e ∈ ps, e.2.1 ≠ URLType.IGNORED → e.1.search url = false) →
      (∃ e ∈ ps, e.2.1 = URLType.IGNORED ∧ e.1.search url = true) →
      (URLCategorizer.categorizeAux url lang ps).url_type
        = URLType.IGNORED := by
  intro ps
  induction ps with
  | nil => rintro _ ⟨e, he, _⟩; cases he
  | cons e rest ih =>
      rintro hno ⟨w, hw, hwt, hws⟩
      obtain ⟨p, t, pr⟩ := e
      by_cases h : p.search url
      · simp only [URLCategorizer.categorizeAux, h, if_true]
        by_contra hne
        have := hno (p, t, pr) (by simp) (by simpa using hne)
        simp [h] at this
      · simp only [URLCategorizer.categorizeAux, h, if_false]
        apply ih
        · intro e' he' hne'
          exact hno e' (List.mem_cons_of_mem _ he') hne'
        · rcases List.mem_cons.mp hw with hw | hw
          · subst hw
            simp only at hws
            simp [hws] at h
          · exact ⟨w, hw, hwt, hws⟩

theorem mem_insertByPriority (a x : CategorizedURL) :
    ∀ l, a ∈ URLCategorizer.insertByPriority x l ↔ a = x ∨ a ∈ l := by
  intro l
  induction l with
  | nil => simp [URLCategorizer.insertByPriority]
  | cons y ys ih =>
      by_cases h : y.priority ≤ x.priority
      · simp only [URLCategorizer.insertByPriority, h, if_true,
          List.mem_cons, ih]
        tauto
      · simp only [URLCategorizer.insertByPriority, h, if_false,
          List.mem_cons]

theorem mem_sortByPriority (a : CategorizedURL) :
    ∀ l, a ∈ URLCategorizer.sortByPriority l ↔ a ∈ l := by
  intro l
  induction l with
  | nil => simp [URLCategorizer.sortByPriority]
  | cons x xs ih =>
      simp [URLCategorizer.sortByPriority, mem_insertByPriority, ih]

theorem mem_filter_scrapable (urls : List String) (cu : CategorizedURL) :
    cu ∈ URLCategorizer.filter_scrapable urls →
      cu.url_type ≠ URLType.IGNORED ∧ ∃ u ∈ urls, cu = URLCategorizer.categorize u := by
  intro hmem
  rw [URLCategorizer.filter_scrapable, mem_sortByPriority] at hmem
  obtain ⟨t, ht, hcu⟩ := List.mem_flatMap.mp hmem
  have htne : t ≠ URLType.IGNORED := by
    have := (List.mem_filter.mp ht).2
    simpa using this
  rw [URLCategorizer.batchGroup, mem_sortByPriority] at hcu
  obtain ⟨hmap, htype⟩ := List.mem_filter.mp hcu
  obtain ⟨u, hu, hcat⟩ := List.mem_map.mp hmap
  refine ⟨?_, u, hu, hcat.symm⟩
  have : cu.url_type = t := by simpa using htype
  rw [this]
  exact htne

/-! ## Claim C1 -/

/-- C1 counterexample: `https://www.spca.com/en/services/brochure.pdf`
matches the `.pdf$` ignore pattern, yet `categorize` returns `SERVICE`
(the `/en/services/` pattern is checked first), and `filter_scrapable`
returns the URL — refuting the claim that every ignore-matching URL is
categorized `IGNORED` and never returned as scrapable. -/
theorem C1_counterexample :
    URLCategorizer.ignorePatternMatches
        "https://www.spca.com/en/services/brochure.pdf" = true ∧
    (URLCategorizer.categorize
        "https://www.spca.com/en/services/brochure.pdf").url_type
      = URLType.SERVICE ∧
    ¬ (URLCategorizer.categorize
        "https://www.spca.com/en/services/brochure.pdf").url_type
      = URLType.IGNORED ∧
    "https://www.spca.com/en/services/brochure.pdf" ∈
      (URLCategorizer.filter_scrapable
          ["https://www.spca.com/en/services/brochure.pdf"]).map
        CategorizedURL.url := by
  refine ⟨by decide, by decide, by decide, by decide⟩

/-- C1 (amended): a URL matching one of the ignore patterns is categorized
`IGNORED` provided it matches none of the earlier, higher-priority content
patterns (animal, adoption, service, tips); and `filter_scrapable` never
returns a URL whose categorization is `IGNORED`. -/
theorem C1_ignore_rules (url : String)
    (hig : URLCategorizer.ignorePatternMatches url = true)
    (hnc : URLCategorizer.contentPatternMatches url = false) :
    (URLCategorizer.categorize url).url_type = URLType.IGNORED ∧
    ∀ (urls : List String) (cu : CategorizedURL),
      cu ∈ URLCategorizer.filter_scrapable urls →
        cu.url_type ≠ URLType.IGNORED ∧
        (URLCategorizer.categorize cu.url).url_type ≠ URLType.IGNORED := by
  constructor
  · have hforall : ∀ e ∈ URLCategorizer.PATTERNS.filter
        (fun e => decide (e.2.1 ≠ URLType.IGNORED)), e.1.search url = false := by
      intro e hmemf
      have h := hnc
      unfold URLCategorizer.contentPatternMatches at h
      rw [List.any_eq_false] at h
      have := h e hmemf
      simpa using this
    apply categorizeAux_ignored
    · intro e he hne
      exact hforall e (List.mem_filter.mpr ⟨he, by simpa using hne⟩)
    · have h := hig
      unfold URLCategorizer.ignorePatternMatches at h
      rw [List.any_eq_true] at h
      obtain ⟨e, he, hse⟩ := h
      obtain ⟨hmem, htyp⟩ := List.mem_filter.mp he
      exact ⟨e, hmem, by simpa using htyp, hse⟩
  · intro urls cu hmem
    obtain ⟨hne, u, hu, hcu⟩ := mem_filter_scrapable urls cu hmem
    refine ⟨hne, ?_⟩
    have hurl : cu.url = u := by rw [hcu]; exact categorize_url_eq u
    rw [hurl, ← hcu]
    exact hne

/-! ## Supporting lemmas for the entity sub-pipeline (C2) -/

/-- Status of the animal with the given reference number (`find?` on the
unique key). -/
def statusIn (store : AnimalStore) (ref : String) : Option AnimalStatus :=
  (store.find? (fun a => a.1 == ref)).map Prod.snd

example :
    (scrapeAnimals
      [("A", .AVAILABLE), ("B", .AVAILABLE), ("C", .AVAILABLE)]
      [.saved "u1" "A", .saved "u2" "B"]).2.2 = ({"C"} : Finset String) := by
  decide

example :
    statusIn (scrapeAnimals
      [("A", .AVAILABLE), ("B", .AVAILABLE), ("C", .AVAILABLE)]
      [.saved "u1" "A", .saved "u2" "B"]).1 "C" = some .ADOPTED := by decide

example :
    (scrapeAnimals
      [("A", .AVAILABLE), ("B", .AVAILABLE), ("C", .AVAILABLE)]
      [.saved "u1" "A", .saved "u2" "B", .saved "u3" "C", .saved "u4" "D"]
      ).2.2 = (∅ : Finset String) := by decide

example :
    statusIn (scrapeAnimals
      [("A", .AVAILABLE), ("B", .AVAILABLE), ("C", .AVAILABLE)]
      [.saved "u1" "A", .saved "u2" "B", .saved "u3" "C", .saved "u4" "D"]
      ).1 "D" = some .AVAILABLE := by decide

theorem statusIn_mark_adopted (store : AnimalStore) (r x : String) :
    statusIn (AnimalRepository.mark_adopted store r) x
      = if x = r ∧ (statusIn store r).isSome then some AnimalStatus.ADOPTED
        else statusIn store x := by
  cases hf : store.find? (fun a => a.1 == r) with
  | none =>
      have hm : AnimalRepository.mark_adopted store r = store := by
        simp [AnimalRepository.mark_adopted, AnimalRepository.get_by_reference,
          hf]
      have hpr : (statusIn store r).isSome = false := by
        simp [statusIn, hf]
      simp [hm, hpr]
  | some e =>
      have hm : AnimalRepository.mark_adopted store r
          = store.map
              (fun a => if a.1 == r then (a.1, AnimalStatus.ADOPTED) else a) := by
        simp [AnimalRepository.mark_adopted, AnimalRepository.get_by_reference,
          hf]
      have hpr : (statusIn store r).isSome = true := by
        simp [statusIn, hf]
      have hcomp :
          ((fun a : String × AnimalStatus => a.1 == x) ∘
            (fun a => if a.1 == r then (a.1, AnimalStatus.ADOPTED) else a))
            = (fun a : String × AnimalStatus => a.1 == x) := by
        funext a
        by_cases h : a.1 = r <;> simp [h]
      rw [hm]
      unfold statusIn
      rw [List.find?_map, hcomp]
      by_cases hx : x = r
      · subst hx
        simp only [hpr, and_true, if_pos rfl]
        cases hg : store.find? (fun a : String × AnimalStatus => a.1 == x) with
        | none => rw [hg] at hf; cases hf
        | some e2 =>
            have hk : (e2.1 == x) = true := by
              simpa using List.find?_some hg
            simp [hk, eq_of_beq hk]
      · simp only [hx, false_and, if_false]
        cases hg : store.find? (fun a : String × AnimalStatus => a.1 == x) with
        | none => simp
        | some e2 =>
            have hk : (e2.1 == x) = true := by
              simpa using List.find?_some hg
            have hne : ¬ e2.1 = r := by
              have hkx := eq_of_beq hk
              subst hkx
              intro h
              exact hx h
            simp [hne]

theorem statusIn_foldl_mark_adopted (refs : List String) :
    ∀ (store : AnimalStore) (x : String),
      statusIn (refs.foldl AnimalRepository.mark_adopted store) x
        = if x ∈ refs ∧ (statusIn store x).isSome
          then some AnimalStatus.ADOPTED else statusIn store x := by
  induction refs with
  | nil => intro store x; simp
  | cons r rest ih =>
      intro store x
      simp only [List.foldl_cons]
      rw [ih, statusIn_mark_adopted]
      by_cases hx : x = r
      all_goals by_cases hm : x ∈ rest
      all_goals by_cases hp : (statusIn store x).isSome
      all_goals simp_all [List.mem_cons]

theorem statusIn_append_of_isSome (l ext : AnimalStore) (x : String)
    (h : (statusIn l x).isSome) : statusIn (l ++ ext) x = statusIn l x := by
  unfold statusIn at *
  rw [List.find?_append]
  cases hf : l.find? (fun a => a.1 == x) with
  | none => rw [hf] at h; simp at h
  | some e => simp [hf]

theorem upsert_ok_shape (store : AnimalStore) (r : String) (s2 : AnimalStore)
    (h : AnimalRepository.upsert store r = .ok s2) :
    (s2 = store ∧ (statusIn store r).isSome) ∨
      (s2 = store ++ [(r, AnimalStatus.AVAILABLE)]) := by
  unfold AnimalRepository.upsert at h
  by_cases hr : (r == "") = true
  · rw [if_pos hr] at h
    cases h
  · rw [if_neg hr] at h
    cases hf : AnimalRepository.get_by_reference store r with
    | none =>
        rw [hf] at h
        right
        exact (Except.ok.inj h).symm
    | some e =>
        rw [hf] at h
        left
        refine ⟨(Except.ok.inj h).symm, ?_⟩
        unfold AnimalRepository.get_by_reference at hf
        simp [statusIn, hf]

theorem upsert_ok_presence (store : AnimalStore) (r : String)
    (s2 : AnimalStore) (h : AnimalRepository.upsert store r = .ok s2) :
    (statusIn s2 r).isSome := by
  rcases upsert_ok_shape store r s2 h with ⟨hs, hp⟩ | hs
  · rw [hs]; exact hp
  · subst hs
    unfold statusIn
    rw [List.find?_append]
    cases hf : store.find? (fun a => a.1 == r) with
    | none => simp [hf]
    | some e => simp [hf]

/-- Invariant of the `_scrape_animals` pet loop: the animal table only grows
by appended rows, and every reference in `found_refs` has a row. -/
theorem foldl_processPet_invariant (pets : List PetOutcome) :
    ∀ st : AnimalRunState,
      (∃ ext, (pets.foldl processPet st).animals = st.animals ++ ext) ∧
      (∀ ref, ref ∈ (pets.foldl processPet st).found →
        ref ∈ st.found ∨
          (statusIn (pets.foldl processPet st).animals ref).isSome) := by
  induction pets with
  | nil => intro st; exact ⟨⟨[], by simp⟩, fun ref h => Or.inl h⟩
  | cons p rest ih =>
      intro st
      simp only [List.foldl_cons]
      obtain ⟨⟨ext, hext⟩, hfound⟩ := ih (processPet st p)
      constructor
      · cases p with
        | noUrl => exact ⟨ext, by simpa [processPet] using hext⟩
        | scrapeFail u e => exact ⟨ext, by simpa [processPet] using hext⟩
        | saveFail u r => exact ⟨ext, by simpa [processPet] using hext⟩
        | saved u r =>
            cases hup : AnimalRepository.upsert st.animals r with
            | error e =>
                refine ⟨ext, ?_⟩
                rw [hext]
                simp [processPet, hup]
            | ok animals2 =>
                rcases upsert_ok_shape st.animals r animals2 hup with
                  ⟨hs, _⟩ | hs
                · refine ⟨ext, ?_⟩
                  rw [hext]
                  simp [processPet, hup, hs]
                · refine ⟨(r, AnimalStatus.AVAILABLE) :: ext, ?_⟩
                  rw [hext]
                  simp [processPet, hup, hs]
      · intro ref hmem
        rcases hfound ref hmem with hin | hsome
        · -- ref was already in found after one step
          cases p with
          | noUrl => exact Or.inl (by simpa [processPet] using hin)
          | scrapeFail u e => exact Or.inl (by simpa [processPet] using hin)
          | saveFail u r => exact Or.inl (by simpa [processPet] using hin)
          | saved u r =>
              cases hup : AnimalRepository.upsert st.animals r with
              | error e =>
                  exact Or.inl (by simpa [processPet, hup] using hin)
              | ok animals2 =>
                  by_cases hr : (r != "") = true
                  · have hin2 : ref ∈ insert r st.found := by
                      simpa [processPet, hup, hr] using hin
                    rcases Finset.mem_insert.mp hin2 with hrr | hold
                    · subst hrr
                      right
                      have hpres :=
                        upsert_ok_presence st.animals ref animals2 hup
                      have hanim :
                          (processPet st (PetOutcome.saved u ref)).animals
                            = animals2 := by
                        simp [processPet, hup, hr]
                      rw [hext, hanim]
                      rw [statusIn_append_of_isSome _ _ _ hpres]
                      exact hpres
                    · exact Or.inl hold
                  · exact Or.inl (by simpa [processPet, hup, hr] using hin)
        · exact Or.inr hsome

/-! ## Claim C2 -/

/-- C2: in `_scrape_animals`, the set of references marked adopted is
exactly (previously known references) minus (references observed this run):
the returned `adopted_refs` is that set difference, every reference in the
difference ends the run with status `ADOPTED`, and every observed reference
has a stored record.  Instantiated on the claim's scenarios: prior
`{A,B,C}` with observed `{A,B}` marks exactly `{C}`; prior `{A,B,C}` with
observed `{A,B,C,D}` marks none and stores `D` as a new record. -/
theorem C2_diff_removal (animals : AnimalStore) (pets : List PetOutcome) :
    ((scrapeAnimals animals pets).2.2
        = AnimalRepository.get_all_reference_numbers animals
            \ (scrapeAnimals animals pets).2.1) ∧
    (∀ ref ∈ AnimalRepository.get_all_reference_numbers animals
        \ (scrapeAnimals animals pets).2.1,
      statusIn (scrapeAnimals animals pets).1 ref
        = some AnimalStatus.ADOPTED) ∧
    (∀ ref ∈ (scrapeAnimals animals pets).2.1,
      (statusIn (scrapeAnimals animals pets).1 ref).isSome) ∧
    ((scrapeAnimals
        [("A", .AVAILABLE), ("B", .AVAILABLE), ("C", .AVAILABLE)]
        [.saved "u1" "A", .saved "u2" "B"]).2.2
      = ({"C"} : Finset String)) ∧
    (statusIn (scrapeAnimals
        [("A", .AVAILABLE), ("B", .AVAILABLE), ("C", .AVAILABLE)]
        [.saved "u1" "A", .saved "u2" "B"]).1 "C"
      = some AnimalStatus.ADOPTED) ∧
    (statusIn (scrapeAnimals
        [("A", .AVAILABLE), ("B", .AVAILABLE), ("C", .AVAILABLE)]
        [.saved "u1" "A", .saved "u2" "B"]).1 "A"
      = some AnimalStatus.AVAILABLE) ∧
    ((scrapeAnimals
        [("A", .AVAILABLE), ("B", .AVAILABLE), ("C", .AVAILABLE)]
        [.saved "u1" "A", .saved "u2" "B", .saved "u3" "C",
         .saved "u4" "D"]).2.2 = (∅ : Finset String)) ∧
    (statusIn (scrapeAnimals
        [("A", .AVAILABLE), ("B", .AVAILABLE), ("C", .AVAILABLE)]
        [.saved "u1" "A", .saved "u2" "B", .saved "u3" "C",
         .saved "u4" "D"]).1 "D" = some AnimalStatus.AVAILABLE) := by
  obtain ⟨⟨ext, hext⟩, hfound⟩ :=
    foldl_processPet_invariant pets ⟨animals, ∅, 0, 0⟩
  refine ⟨rfl, ?_, ?_, by decide, by decide, by decide, by decide, by decide⟩
  · intro ref href
    simp only [scrapeAnimals] at href ⊢
    obtain ⟨hex, hnf⟩ := Finset.mem_sdiff.mp href
    have hex' : ref ∈ animals.map Prod.fst := by
      simpa [AnimalRepository.get_all_reference_numbers] using hex
    have hpres0 : (statusIn animals ref).isSome := by
      unfold statusIn
      obtain ⟨a, ha, hfst⟩ := List.mem_map.mp hex'
      have : ∃ x ∈ animals, ((fun a => a.1 == ref) x) = true :=
        ⟨a, ha, by simp [hfst]⟩
      rw [← List.find?_isSome] at this
      cases hf : animals.find? (fun a => a.1 == ref) with
      | none => rw [hf] at this; simp at this
      | some e => simp
    have hpresFold :
        statusIn (pets.foldl processPet ⟨animals, ∅, 0, 0⟩).animals ref
          = statusIn animals ref := by
      rw [hext]
      exact statusIn_append_of_isSome _ _ _ hpres0
    have hmemAd : ref ∈ (animals.map Prod.fst).dedup.filter
        (fun r => decide
          (r ∉ (pets.foldl processPet ⟨animals, ∅, 0, 0⟩).found)) := by
      refine List.mem_filter.mpr ⟨List.mem_dedup.mpr hex', ?_⟩
      simpa using hnf
    rw [statusIn_foldl_mark_adopted]
    rw [if_pos ⟨hmemAd, by rw [hpresFold]; exact hpres0⟩]
  · intro ref href
    simp only [scrapeAnimals] at href ⊢
    rcases hfound ref href with hemp | hsome
    · simp at hemp
    · rw [statusIn_foldl_mark_adopted]
      by_cases hc : ref ∈ (animals.map Prod.fst).dedup.filter
          (fun r => decide
            (r ∉ (pets.foldl processPet ⟨animals, ∅, 0, 0⟩).found))
          ∧ (statusIn
              (pets.foldl processPet ⟨animals, ∅, 0, 0⟩).animals ref).isSome
      · rw [if_pos hc]; rfl
      · rw [if_neg hc]; exact hsome

/-- Witness for `C2_diff_removal`: in the claim's first scenario, `C` ends
the run marked `ADOPTED`. -/
theorem C2_diff_removal_witness :
    statusIn (scrapeAnimals
      [("A", .AVAILABLE), ("B", .AVAILABLE), ("C", .AVAILABLE)]
      [.saved "u1" "A", .saved "u2" "B"]).1 "C"
      = some AnimalStatus.ADOPTED :=
  (C2_diff_removal
    [("A", .AVAILABLE), ("B", .AVAILABLE), ("C", .AVAILABLE)]
    [.saved "u1" "A", .saved "u2" "B"]).2.1 "C" (by decide)

/-! ## Claim C3 -/

/-- C3 counterexample: one tracked URL whose retry raises an exception in
every round.  Round 1 converts zero failures to successes
(`retry_success = 0`), yet round 2 still executes (the loop runs 2 rounds),
because the early-exit test is `retry_success == 0 and retried > 0` and an
exception skips the `retried += 1` statement. -/
theorem C3_counterexample :
    (runRound (fun _ => FetchOutcome.exc "boom") 0
        [{ url := "u", url_type := .GENERAL, content_hash := none,
           last_scraped_at := none, scrape_status := .FAILED,
           retry_count := 1, error_message := some "e", file_path := none,
           job_id := none }]
        (ScrapedURLRepository.get_failed
          [{ url := "u", url_type := .GENERAL, content_hash := none,
             last_scraped_at := none, scrape_status := .FAILED,
             retry_count := 1, error_message := some "e", file_path := none,
             job_id := none }] 3)).retry_success = 0 ∧
    (phase2 (fun _ _ => FetchOutcome.exc "boom") 0
        [{ url := "u", url_type := .GENERAL, content_hash := none,
           last_scraped_at := none, scrape_status := .FAILED,
           retry_count := 1, error_message := some "e", file_path := none,
           job_id := none }]).2 = 2 := by
  exact ⟨by decide, by decide⟩

/-- C3 (amended): a phase-2 round with zero retry successes stops the loop
only when at least one retry completed without raising
(`retried > 0`); under that extra condition no further round executes. -/
theorem C3_early_exit (f : Nat → String → FetchOutcome) (now : Nat)
    (store : URLStore) (fuel k : Nat)
    (hne : (ScrapedURLRepository.get_failed store 3).isEmpty = false)
    (hzero : (runRound (f k) now store
        (ScrapedURLRepository.get_failed store 3)).retry_success = 0)
    (hret : 0 < (runRound (f k) now store
        (ScrapedURLRepository.get_failed store 3)).retried) :
    phase2Go f now (fuel + 1) k store
      = ((runRound (f k) now store
          (ScrapedURLRepository.get_failed store 3)).store, 1) := by
  simp [phase2Go, hne, hzero, hret]

/-- Witness for `C3_early_exit`: a round whose single retry fails without
raising (zero successes, `retried = 1`) is the last round. -/
theorem C3_early_exit_witness :
    phase2Go (fun _ _ => FetchOutcome.fail "nope") 0 3 1
        [{ url := "u", url_type := .GENERAL, content_hash := none,
           last_scraped_at := none, scrape_status := .FAILED,
           retry_count := 1, error_message := some "e", file_path := none,
           job_id := none }]
      = ((runRound ((fun _ _ => FetchOutcome.fail "nope") 1) 0
          [{ url := "u", url_type := .GENERAL, content_hash := none,
             last_scraped_at := none, scrape_status := .FAILED,
             retry_count := 1, error_message := some "e", file_path := none,
             job_id := none }]
          (ScrapedURLRepository.get_failed
            [{ url := "u", url_type := .GENERAL, content_hash := none,
               last_scraped_at := none, scrape_status := .FAILED,
               retry_count := 1, error_message := some "e",
               file_path := none, job_id := none }] 3)).store, 1) :=
  C3_early_exit (fun _ _ => FetchOutcome.fail "nope") 0 _ 2 1
    (by decide) (by decide) (by decide)

/-! ## Claims C8 and C10 -/

theorem find?_eq_self_of_nodup (store : URLStore) (r : ScrapedURLRec)
    (hnd : (store.map ScrapedURLRec.url).Nodup) (hr : r ∈ store) :
    store.find? (fun x => x.url == r.url) = some r := by
  induction store with
  | nil => cases hr
  | cons a rest ih =>
      have hnd' : (rest.map ScrapedURLRec.url).Nodup := by
        rw [List.map_cons, List.nodup_cons] at hnd
        exact hnd.2
      have hnotin : a.url ∉ rest.map ScrapedURLRec.url := by
        rw [List.map_cons, List.nodup_cons] at hnd
        exact hnd.1
      rcases List.mem_cons.mp hr with h | h
      · subst h
        simp [List.find?]
      · have hane : (a.url == r.url) = false := by
          rw [beq_eq_false_iff_ne]
          intro he
          exact hnotin (he ▸ List.mem_map_of_mem _ h)
        rw [List.find?]
        rw [hane]
        exact ih hnd' h

/-- C8: `retry_count` never decreases under `upsert`, `mark_success` or
`mark_failed` (the latter increments it by exactly one on the target URL,
given the table's unique-URL constraint), and `get_failed(max_retries)`
only returns URLs with `scrape_status = FAILED` and
`retry_count < max_retries`. -/
theorem C8_retry_count_invariant :
    (∀ (store : URLStore) (url : String) (t : URLType) (j : Option Nat)
        (r : ScrapedURLRec), r ∈ store →
      ∃ r' ∈ ScrapedURLRepository.upsert store url t j,
        r'.url = r.url ∧ r.retry_count ≤ r'.retry_count) ∧
    (∀ (store : URLStore) (url hash : String) (fp : Option String)
        (now : Nat) (r : ScrapedURLRec), r ∈ store →
      ∃ r' ∈ ScrapedURLRepository.mark_success store url hash fp now,
        r'.url = r.url ∧ r.retry_count ≤ r'.retry_count) ∧
    (∀ (store : URLStore) (url err : String) (r : ScrapedURLRec),
        (store.map ScrapedURLRec.url).Nodup → r ∈ store →
      ∃ r' ∈ ScrapedURLRepository.mark_failed store url err,
        r'.url = r.url ∧ r.retry_count ≤ r'.retry_count ∧
        (r.url = url → r'.retry_count = r.retry_count + 1)) ∧
    (∀ (store : URLStore) (m : Nat) (r : ScrapedURLRec),
        r ∈ ScrapedURLRepository.get_failed store m →
      r.scrape_status = ScrapeStatus.FAILED ∧ r.retry_count < m) := by
  refine ⟨?_, ?_, ?_, ?_⟩
  · intro store url t j r hr
    unfold ScrapedURLRepository.upsert
    cases hf : ScrapedURLRepository.get_by_url store url with
    | some e =>
        refine ⟨_, List.mem_map_of_mem _ hr, ?_, ?_⟩
        · by_cases h : (r.url == url) = true <;> simp [h]
        · by_cases h : (r.url == url) = true <;> simp [h]
    | none =>
        exact ⟨r, List.mem_append_left _ hr, rfl, le_refl _⟩
  · intro store url hash fp now r hr
    unfold ScrapedURLRepository.mark_success
    refine ⟨_, List.mem_map_of_mem _ hr, ?_, ?_⟩
    · by_cases h : (r.url == url) = true <;> simp [h]
    · by_cases h : (r.url == url) = true <;> simp [h]
  · intro store url err r hnd hr
    unfold ScrapedURLRepository.mark_failed
    cases hf : ScrapedURLRepository.get_by_url store url with
    | none =>
        refine ⟨r, hr, rfl, le_refl _, ?_⟩
        intro hu
        exfalso
        unfold ScrapedURLRepository.get_by_url at hf
        rw [← hu] at hf
        rw [find?_eq_self_of_nodup store r hnd hr] at hf
        cases hf
    | some fetched =>
        refine ⟨_, List.mem_map_of_mem _ hr, ?_, ?_, ?_⟩
        · by_cases h : (r.url == url) = true <;> simp [h]
        · by_cases h : (r.url == url) = true
          · have hrf : fetched = r := by
              unfold ScrapedURLRepository.get_by_url at hf
              have heq := eq_of_beq h
              rw [← heq] at hf
              rw [find?_eq_self_of_nodup store r hnd hr] at hf
              exact (Option.some.inj hf).symm
            subst hrf
            simp [h]
          · simp [h]
        · intro hu
          have h : (r.url == url) = true := by simp [hu]
          have hrf : fetched = r := by
            unfold ScrapedURLRepository.get_by_url at hf
            rw [← hu] at hf
            rw [find?_eq_self_of_nodup store r hnd hr] at hf
            exact (Option.some.inj hf).symm
          subst hrf
          simp [h]
  · intro store m r hr
    have := List.mem_filter.mp hr
    obtain ⟨_, hcond⟩ := this
    have hb := Bool.and_eq_true_iff.mp hcond
    constructor
    · exact eq_of_beq hb.1
    · simpa using hb.2

/-- Witness for `C8_retry_count_invariant`: `mark_failed` on a concrete
one-row table bumps `retry_count` from 2 to 3. -/
theorem C8_retry_count_invariant_witness :
    ∃ r' ∈ ScrapedURLRepository.mark_failed
        [{ url := "u", url_type := .GENERAL, content_hash := none,
           last_scraped_at := none, scrape_status := .FAILED,
           retry_count := 2, error_message := none, file_path := none,
           job_id := none }] "u" "err",
      r'.url = "u" ∧ 2 ≤ r'.retry_count ∧ ("u" = "u" → r'.retry_count = 3) :=
  C8_retry_count_invariant.2.2.1
    [{ url := "u", url_type := .GENERAL, content_hash := none,
       last_scraped_at := none, scrape_status := .FAILED,
       retry_count := 2, error_message := none, file_path := none,
       job_id := none }] "u" "err"
    { url := "u", url_type := .GENERAL, content_hash := none,
      last_scraped_at := none, scrape_status := .FAILED,
      retry_count := 2, error_message := none, file_path := none,
      job_id := none }
    (by decide) (by decide)

/-- C10: for a URL that already has a tracking record, `upsert` modifies
only `url_type` (and `job_id` when the argument is truthy — Python's
`if job_id:`); `scrape_status`, `retry_count`, `content_hash`,
`last_scraped_at`, `file_path` and `error_message` are untouched, and rows
for other URLs are left entirely unchanged. -/
theorem C10_upsert_frame (store : URLStore) (url : String) (t : URLType)
    (j : Option Nat) (r : ScrapedURLRec)
    (hex : (ScrapedURLRepository.get_by_url store url).isSome)
    (hr : r ∈ store) :
    ∃ r' ∈ ScrapedURLRepository.upsert store url t j,
      r'.url = r.url ∧
      r'.scrape_status = r.scrape_status ∧
      r'.retry_count = r.retry_count ∧
      r'.content_hash = r.content_hash ∧
      r'.last_scraped_at = r.last_scraped_at ∧
      r'.file_path = r.file_path ∧
      r'.error_message = r.error_message ∧
      (r.url = url → r'.url_type = t) ∧
      (r.url = url → ScrapedURLRepository.jobIdTruthy j = true →
        r'.job_id = j) ∧
      (r.url = url → ScrapedURLRepository.jobIdTruthy j = false →
        r'.job_id = r.job_id) ∧
      (r.url ≠ url → r' = r) := by
  unfold ScrapedURLRepository.upsert
  cases hf : ScrapedURLRepository.get_by_url store url with
  | none => rw [hf] at hex; cases hex
  | some e =>
      refine ⟨_, List.mem_map_of_mem _ hr, ?_⟩
      by_cases h : (r.url == url) = true
      · have hequ : r.url = url := eq_of_beq h
        by_cases hj : ScrapedURLRepository.jobIdTruthy j = true
        · simp [h, hj]
          intro hc
          exact absurd hequ hc
        · simp [h, hj]
          intro hc
          exact absurd hequ hc
      · have hne : ¬ r.url = url := by simpa using h
        simp [h, hne]

/-- Witness for `C10_upsert_frame`: a concrete existing row keeps its
status, retry count, hash, timestamps and error across `upsert`. -/
theorem C10_upsert_frame_witness :
    ∃ r' ∈ ScrapedURLRepository.upsert
        [{ url := "u", url_type := .GENERAL, content_hash := some "h",
           last_scraped_at := some 5, scrape_status := .SUCCESS,
           retry_count := 2, error_message := some "olderr",
           file_path := some "p", job_id := some 1 }] "u" .SERVICE (some 9),
      r'.url = "u" ∧
      r'.scrape_status = ScrapeStatus.SUCCESS ∧
      r'.retry_count = 2 ∧
      r'.content_hash = some "h" ∧
      r'.last_scraped_at = some 5 ∧
      r'.file_path = some "p" ∧
      r'.error_message = some "olderr" ∧
      ("u" = "u" → r'.url_type = URLType.SERVICE) ∧
      ("u" = "u" → ScrapedURLRepository.jobIdTruthy (some 9) = true →
        r'.job_id = some 9) ∧
      ("u" = "u" → ScrapedURLRepository.jobIdTruthy (some 9) = false →
        r'.job_id = some 1) ∧
      ("u" ≠ "u" →
        r' = { url := "u", url_type := .GENERAL, content_hash := some "h",
               last_scraped_at := some 5, scrape_status := .SUCCESS,
               retry_count := 2, error_message := some "olderr",
               file_path := some "p", job_id := some 1 }) :=
  C10_upsert_frame
    [{ url := "u", url_type := .GENERAL, content_hash := some "h",
       last_scraped_at := some 5, scrape_status := .SUCCESS,
       retry_count := 2, error_message := some "olderr",
       file_path := some "p", job_id := some 1 }] "u" .SERVICE (some 9)
    { url := "u", url_type := .GENERAL, content_hash := some "h",
      last_scraped_at := some 5, scrape_status := .SUCCESS,
      retry_count := 2, error_message := some "olderr",
      file_path := some "p", job_id := some 1 }
    (by decide) (by decide)

/-! ## Claim C4 -/

/-- C4 evaluation: when the body of a job run raises, `fail_job` does set
FAILED with error and completion time on the in-transaction row, and the
exception is re-raised to the caller; but the re-raised exception makes
`get_session` roll the session back, so the database keeps the job row at
status RUNNING with no error message and no completion timestamp (or, when
no per-item commit happened before the failure, no job row at all).  The
same holds for all three run variants. -/
theorem C4_fail_job_rolled_back :
    ((run_full_scrape ⟨true, .error "boom"⟩ 7).2 = .error "boom") ∧
    ((ScrapeJobRepository.fail_job
        (sessionCommit
          (ScrapeJobRepository.start_job ⟨none, none⟩ .FULL 7))
        "boom" 7).pending.map JobRec.status = some JobStatus.FAILED) ∧
    ((ScrapeJobRepository.fail_job
        (sessionCommit
          (ScrapeJobRepository.start_job ⟨none, none⟩ .FULL 7))
        "boom" 7).pending.map JobRec.error_message = some (some "boom")) ∧
    ((run_full_scrape ⟨true, .error "boom"⟩ 7).1.committed.map JobRec.status
        = some JobStatus.RUNNING) ∧
    ((run_full_scrape ⟨true, .error "boom"⟩ 7).1.committed.map
        JobRec.error_message = some none) ∧
    ((run_full_scrape ⟨true, .error "boom"⟩ 7).1.committed.map
        JobRec.completed_at = some none) ∧
    ((run_full_scrape ⟨false, .error "boom"⟩ 7).1.committed = none) ∧
    ((run_animal_scrape ⟨true, .error "boom"⟩ 7).2 = .error "boom") ∧
    ((run_animal_scrape ⟨true, .error "boom"⟩ 7).1.committed.map
        JobRec.status = some JobStatus.RUNNING) ∧
    ((run_content_scrape ⟨true, .error "boom"⟩ 7).2 = .error "boom") ∧
    ((run_content_scrape ⟨true, .error "boom"⟩ 7).1.committed.map
        JobRec.status = some JobStatus.RUNNING) := by
  refine ⟨rfl, rfl, rfl, rfl, rfl, rfl, rfl, rfl, rfl, rfl, rfl⟩

/-! ## Claim C5 -/

/-- C5: `scrape` makes at most 3 attempts (and at least one); `acquire()`
is called exactly once per attempt, retries included; an attempt is
followed by another one only when it raised a retryable
(connection/timeout/OS) error; a non-retryable error is terminal for the
call; and a `wait_for` timeout is converted into a retryable
`TimeoutError`. -/
theorem C5_scrape_retry (url : String) (f : Nat → FetchRes) :
    ((scrape url f).acquires = (scrape url f).attempts) ∧
    (1 ≤ (scrape url f).attempts) ∧
    ((scrape url f).attempts ≤ 3) ∧
    (∀ j, j + 1 < (scrape url f).attempts →
      ∃ e, scrapeBody url (f j) = .error e ∧ e.retryable = true) ∧
    (∀ j e, j < (scrape url f).attempts → scrapeBody url (f j) = .error e →
      e.retryable = false →
        (scrape url f).attempts = j + 1 ∧
          (scrape url f).result = .error e) ∧
    (scrapeBody url FetchRes.waitForTimeout
        = .error (.timeoutError ("Timeout scraping " ++ url))) ∧
    ((PyExc.timeoutError ("Timeout scraping " ++ url)).retryable = true) := by
  cases h0 : scrapeBody url (f 0) with
  | ok p0 =>
      have hrun : scrape url f = ⟨.ok p0, 1, 1⟩ := by
        simp [scrape, tenacityGo, h0]
      rw [hrun]
      refine ⟨rfl, by simp, by simp, ?_, ?_, rfl, rfl⟩
      · intro j hj
        simp only [ScrapeRun.attempts] at hj
        omega
      · intro j e hj he _
        simp only [ScrapeRun.attempts] at hj
        have hj0 : j = 0 := by omega
        subst hj0
        rw [h0] at he
        cases he
  | error e0 =>
      cases hr0 : e0.retryable with
      | false =>
          have hrun : scrape url f = ⟨.error e0, 1, 1⟩ := by
            simp [scrape, tenacityGo, h0, hr0]
          rw [hrun]
          refine ⟨rfl, by simp, by simp, ?_, ?_, rfl, rfl⟩
          · intro j hj
            simp only [ScrapeRun.attempts] at hj
            omega
          · intro j e hj he hne
            simp only [ScrapeRun.attempts] at hj
            have hj0 : j = 0 := by omega
            subst hj0
            rw [h0] at he
            exact ⟨rfl, by rw [Except.error.inj he]⟩
      | true =>
          cases h1 : scrapeBody url (f 1) with
          | ok p1 =>
              have hrun : scrape url f = ⟨.ok p1, 2, 2⟩ := by
                simp [scrape, tenacityGo, h0, hr0, h1]
              rw [hrun]
              refine ⟨rfl, by simp, by simp, ?_, ?_, rfl, rfl⟩
              · intro j hj
                simp only [ScrapeRun.attempts] at hj
                have hj0 : j = 0 := by omega
                subst hj0
                exact ⟨e0, h0, hr0⟩
              · intro j e hj he hne
                simp only [ScrapeRun.attempts] at hj
                have : j = 0 ∨ j = 1 := by omega
                rcases this with hj0 | hj1
                · subst hj0
                  rw [h0] at he
                  rw [← Except.error.inj he] at hne
                  rw [hr0] at hne
                  cases hne
                · subst hj1
                  rw [h1] at he
                  cases he
          | error e1 =>
              cases hr1 : e1.retryable with
              | false =>
                  have hrun : scrape url f = ⟨.error e1, 2, 2⟩ := by
                    simp [scrape, tenacityGo, h0, hr0, h1, hr1]
                  rw [hrun]
                  refine ⟨rfl, by simp, by simp, ?_, ?_, rfl, rfl⟩
                  · intro j hj
                    simp only [ScrapeRun.attempts] at hj
                    have hj0 : j = 0 := by omega
                    subst hj0
                    exact ⟨e0, h0, hr0⟩
                  · intro j e hj he hne
                    simp only [ScrapeRun.attempts] at hj
                    have : j = 0 ∨ j = 1 := by omega
                    rcases this with hj0 | hj1
                    · subst hj0
                      rw [h0] at he
                      rw [← Except.error.inj he] at hne
                      rw [hr0] at hne
                      cases hne
                    · subst hj1
                      rw [h1] at he
                      exact ⟨rfl, by rw [Except.error.inj he]⟩
              | true =>
                  cases h2 : scrapeBody url (f 2) with
                  | ok p2 =>
                      have hrun : scrape url f = ⟨.ok p2, 3, 3⟩ := by
                        simp [scrape, tenacityGo, h0, hr0, h1, hr1, h2]
                      rw [hrun]
                      refine ⟨rfl, by simp, by simp, ?_, ?_, rfl, rfl⟩
                      · intro j hj
                        simp only [ScrapeRun.attempts] at hj
                        have : j = 0 ∨ j = 1 := by omega
                        rcases this with hj0 | hj1
                        · subst hj0; exact ⟨e0, h0, hr0⟩
                        · subst hj1; exact ⟨e1, h1, hr1⟩
                      · intro j e hj he hne
                        simp only [ScrapeRun.attempts] at hj
                        have : j = 0 ∨ j = 1 ∨ j = 2 := by omega
                        rcases this with hj0 | hj1 | hj2
                        · subst hj0
                          rw [h0] at he
                          rw [← Except.error.inj he] at hne
                          rw [hr0] at hne
                          cases hne
                        · subst hj1
                          rw [h1] at he
                          rw [← Except.error.inj he] at hne
                          rw [hr1] at hne
                          cases hne
                        · subst hj2
                          rw [h2] at he
                          cases he
                  | error e2 =>
                      cases hr2 : e2.retryable with
                      | false =>
                          have hrun : scrape url f = ⟨.error e2, 3, 3⟩ := by
                            simp [scrape, tenacityGo, h0, hr0, h1, hr1, h2,
                              hr2]
                          rw [hrun]
                          refine ⟨rfl, by simp, by simp, ?_, ?_, rfl, rfl⟩
                          · intro j hj
                            simp only [ScrapeRun.attempts] at hj
                            have : j = 0 ∨ j = 1 := by omega
                            rcases this with hj0 | hj1
                            · subst hj0; exact ⟨e0, h0, hr0⟩
                            · subst hj1; exact ⟨e1, h1, hr1⟩
                          · intro j e hj he hne
                            simp only [ScrapeRun.attempts] at hj
                            have : j = 0 ∨ j = 1 ∨ j = 2 := by omega
                            rcases this with hj0 | hj1 | hj2
                            · subst hj0
                              rw [h0] at he
                              rw [← Except.error.inj he] at hne
                              rw [hr0] at hne
                              cases hne
                            · subst hj1
                              rw [h1] at he
                              rw [← Except.error.inj he] at hne
                              rw [hr1] at hne
                              cases hne
                            · subst hj2
                              rw [h2] at he
                              exact ⟨rfl, by rw [Except.error.inj he]⟩
                      | true =>
                          have hrun : scrape url f
                              = ⟨.error (.retryError e2), 3, 3⟩ := by
                            simp [scrape, tenacityGo, h0, hr0, h1, hr1, h2,
                              hr2]
                          rw [hrun]
                          refine ⟨rfl, by simp, by simp, ?_, ?_, rfl, rfl⟩
                          · intro j hj
                            simp only [ScrapeRun.attempts] at hj
                            have : j = 0 ∨ j = 1 := by omega
                            rcases this with hj0 | hj1
                            · subst hj0; exact ⟨e0, h0, hr0⟩
                            · subst hj1; exact ⟨e1, h1, hr1⟩
                          · intro j e hj he hne
                            simp only [ScrapeRun.attempts] at hj
                            have : j = 0 ∨ j = 1 ∨ j = 2 := by omega
                            rcases this with hj0 | hj1 | hj2
                            · subst hj0
                              rw [h0] at he
                              rw [← Except.error.inj he] at hne
                              rw [hr0] at hne
                              cases hne
                            · subst hj1
                              rw [h1] at he
                              rw [← Except.error.inj he] at hne
                              rw [hr1] at hne
                              cases hne
                            · subst hj2
                              rw [h2] at he
                              rw [← Except.error.inj he] at hne
                              rw [hr2] at hne
                              cases hne

/-- Fetch behavior used by the `C5_scrape_retry` witness: attempt 0 raises
`ConnectionError`, attempt 1 hits the `wait_for` timeout, attempt 2
succeeds. -/
def c5WitnessBehavior : Nat → FetchRes := fun n =>
  if n = 0 then FetchRes.raiseConn "c"
  else if n = 1 then FetchRes.waitForTimeout
  else FetchRes.ok "html"

/-- Witness for `C5_scrape_retry`: a run whose first attempt raises
`ConnectionError` and whose second times out succeeds on the third attempt,
with one `acquire()` per attempt. -/
theorem C5_scrape_retry_witness :
    (scrape "u" c5WitnessBehavior).acquires
      = (scrape "u" c5WitnessBehavior).attempts ∧
    ∃ e, scrapeBody "u" (c5WitnessBehavior 1) = .error e ∧
      e.retryable = true :=
  ⟨(C5_scrape_retry "u" c5WitnessBehavior).1,
    (C5_scrape_retry "u" c5WitnessBehavior).2.2.2.1 1 (by decide)⟩

/-! ## Claim C6 -/

/-- C6: `scrape_batch` returns exactly one result per input URL in input
order; a URL whose scrape raises yields the
`{url, error, success=false}` record while every other URL is still
processed (the j-th result depends only on the scrape behavior at the j-th
URL). -/
theorem C6_scrape_batch (scr : String → Except String RawResult)
    (urls : List String) :
    ((scrape_batch scr urls).length = urls.length) ∧
    (∀ i : Nat, (scrape_batch scr urls)[i]?
      = (urls[i]?).map (scrapeWithSemaphore scr)) ∧
    (∀ (u e : String), u ∈ urls → scr u = .error e →
      ({ url := u, success := false, error := some e, payload := none }
        : RawResult) ∈ scrape_batch scr urls) ∧
    (∀ (scr2 : String → Except String RawResult) (j : Nat),
      (urls[j]?).map scr = (urls[j]?).map scr2 →
      (scrape_batch scr urls)[j]? = (scrape_batch scr2 urls)[j]?) := by
  refine ⟨List.length_map _ _, ?_, ?_, ?_⟩
  · intro i
    exact List.getElem?_map _ _ _
  · intro u e hu hscr
    have hval : scrapeWithSemaphore scr u
        = { url := u, success := false, error := some e, payload := none } := by
      simp [scrapeWithSemaphore, hscr]
    exact hval ▸ List.mem_map_of_mem _ hu
  · intro scr2 j hagree
    rw [scrape_batch, scrape_batch, List.getElem?_map, List.getElem?_map]
    cases hj : urls[j]? with
    | none => rfl
    | some u =>
        rw [hj] at hagree
        have : scr u = scr2 u := Option.some.inj hagree
        simp [scrapeWithSemaphore, this]

/-! ## Claim C7 -/

theorem paginateGo_spec {α : Type} (fetch : String → List α) (base : String) :
    ∀ (k fuel page : Nat),
      (∀ j, j < k → fetch (pageUrl base (page + j)) ≠ []) →
      fetch (pageUrl base (page + k)) = [] →
      k + 1 ≤ fuel →
      paginateGo fetch base fuel page
        = ((List.range k).flatMap
            (fun i => fetch (pageUrl base (page + i))), k + 1) := by
  intro k
  induction k with
  | zero =>
      intro fuel page _ hemp hf
      match fuel, hf with
      | fuel + 1, _ =>
          rw [Nat.add_zero] at hemp
          simp [paginateGo, hemp]
  | succ k ih =>
      intro fuel page hne hemp hf
      match fuel, hf with
      | fuel + 1, hf =>
          have h0 : fetch (pageUrl base page) ≠ [] := by
            have := hne 0 (Nat.succ_pos k)
            simpa using this
          have h0e : (fetch (pageUrl base page)).isEmpty = false := by
            rw [List.isEmpty_eq_false]
            exact h0
          have hrec := ih fuel (page + 1)
            (fun j hj => by
              have := hne (j + 1) (by omega)
              have harg : page + (j + 1) = page + 1 + j := by omega
              rw [harg] at this
              exact this)
            (by
              have harg : page + (k + 1) = page + 1 + k := by omega
              rw [harg] at hemp
              exact hemp)
            (by omega)
          have hsplit : (List.range (k + 1)).flatMap
                (fun i => fetch (pageUrl base (page + i)))
              = fetch (pageUrl base page)
                ++ (List.range k).flatMap
                  (fun i => fetch (pageUrl base (page + 1 + i))) := by
            rw [List.range_succ_eq_map, List.flatMap_cons, List.flatMap_map]
            simp only [Nat.add_zero]
            congr 1
            congr 1
            funext i
            have harg : page + Nat.succ i = page + 1 + i := by omega
            rw [harg]
          simp only [paginateGo, h0e, Bool.false_eq_true, if_false, hrec,
            hsplit]

/-- C7: when pages 1..k are non-empty and page k+1 is empty (with
k+1 ≤ max_pages), `scrape_listing_with_pagination` returns the pages'
items concatenated in page order and makes exactly k+1 page requests; page
1 carries no page suffix, page N ≥ 2 a `/page/N/` segment. -/
theorem C7_pagination {α : Type} (fetch : String → List α)
    (base_url : String) (max_pages k : Nat)
    (hne : ∀ p, 1 ≤ p → p ≤ k →
      fetch (pageUrl (rstripSlash base_url) p) ≠ [])
    (hemp : fetch (pageUrl (rstripSlash base_url) (k + 1)) = [])
    (hk : k + 1 ≤ max_pages) :
    (scrape_listing_with_pagination fetch base_url max_pages
      = ((List.range k).flatMap
          (fun i => fetch (pageUrl (rstripSlash base_url) (1 + i))),
         k + 1)) ∧
    (pageUrl (rstripSlash base_url) 1 = rstripSlash base_url ++ "/") ∧
    (∀ p, 2 ≤ p → pageUrl (rstripSlash base_url) p
      = rstripSlash base_url ++ "/page/" ++ toString p ++ "/") := by
  refine ⟨?_, rfl, ?_⟩
  · unfold scrape_listing_with_pagination
    apply paginateGo_spec
    · intro j hj
      exact hne (1 + j) (by omega) (by omega)
    · have harg : 1 + k = k + 1 := by omega
      rw [harg]
      exact hemp
    · exact hk
  · intro p hp
    unfold pageUrl
    rw [if_neg]
    simp only [beq_iff_eq]
    omega

/-- Listing behavior used by the `C7_pagination` witness: page 1 yields one
item, page 2 one item, page 3 nothing. -/
def c7Fetch : String → List String := fun u =>
  if u = "b/" then ["x"] else if u = "b/page/2/" then ["y"] else []

/-- Witness for `C7_pagination`: two non-empty pages and an empty third
probe give items `["x", "y"]` and exactly 3 page requests. -/
theorem C7_pagination_witness :
    scrape_listing_with_pagination c7Fetch "b" 50 = (["x", "y"], 3) := by
  have h := (C7_pagination c7Fetch "b" 50 2
    (by intro p h1 h2; interval_cases p <;> decide)
    (by decide) (by decide)).1
  rw [h]
  decide

/-! ## Claim C9 -/

/-- C9 evaluation: with `requests_per_second = 1` and `burst = 1`, the
serialized call trace entered at times `[0,0,1,1,2,2,3]` is feasible (each
call starts no earlier than the previous completion), and all 7 calls
complete inside the window `[0,3]` of length `T = 3` — exceeding the
claimed bound `b + r*T = 4`.  The sleeping branch leaves `last_update` at
the pre-sleep instant, so the slept interval is credited twice. -/
theorem C9_rate_limit_violation :
    (rlValidFrom 1 1 (rlInit 1 0) 0 [0, 0, 1, 1, 2, 2, 3] = true) ∧
    (rlRun 1 1 (rlInit 1 0) [0, 0, 1, 1, 2, 2, 3]
      = [0, 1, 1, 2, 2, 3, 3]) ∧
    ((rlRun 1 1 (rlInit 1 0) [0, 0, 1, 1, 2, 2, 3]).length = 7) ∧
    (∀ tf ∈ rlRun 1 1 (rlInit 1 0) [0, 0, 1, 1, 2, 2, 3],
      (0 : ℚ) ≤ tf ∧ tf ≤ 3) ∧
    ¬ ((7 : ℚ) ≤ 1 + 1 * (3 - 0)) := by
  have hrun : rlRun 1 1 (rlInit 1 0) [0, 0, 1, 1, 2, 2, 3]
      = [0, 1, 1, 2, 2, 3, 3] := by
    norm_num [rlRun, rlAcquire, rlInit, min_def]
  have hvalid : rlValidFrom 1 1 (rlInit 1 0) 0 [0, 0, 1, 1, 2, 2, 3]
      = true := by
    norm_num [rlValidFrom, rlAcquire, rlInit, min_def]
  refine ⟨hvalid, hrun, by rw [hrun]; rfl, ?_, by norm_num⟩
  rw [hrun]
  intro tf htf
  fin_cases htf <;> norm_num

/-- Witness for `C1_ignore_rules` at a concrete URL matching the
`/wp-admin/` ignore pattern and no content pattern. -/
theorem C1_ignore_rules_witness :
    (URLCategorizer.categorize
        "https://www.spca.com/wp-admin/options").url_type
      = URLType.IGNORED :=
  (C1_ignore_rules "https://www.spca.com/wp-admin/options"
    (by decide) (by decide)).1

/-- Witness for `C6_scrape_batch` at a concrete two-URL batch whose first
URL raises. -/
theorem C6_scrape_batch_witness :
    ({ url := "a", success := false, error := some "boom", payload := none }
        : RawResult) ∈ scrape_batch
      (fun u => if u = "a" then .error "boom"
        else .ok { url := u, success := true, error := none,
                   payload := some "body" })
      ["a", "b"] :=
  (C6_scrape_batch
    (fun u => if u = "a" then .error "boom"
      else .ok { url := u, success := true, error := none,
                 payload := some "body" })
    ["a", "b"]).2.2.1 "a" "boom" (by decide) (by decide)
